import Mathlib

/-!
Shallow embedding of the core logic of the great-figures quiz application
(src/js/gamification.js and src/js/utils.js).

JavaScript numbers are modelled as `Nat` (all quantities involved are
non-negative integers in the source: levels, experience, points, counters)
except calendar dates, which are modelled as `Int` day numbers so that the
day-difference arithmetic of `updateStreak` is direct.  `localStorage`
round-trips are modelled by passing the persisted `UserData` record
explicitly: each operation takes the current persisted record and returns
the new persisted record together with its JS return value.  `Math.random`
is modelled by an explicit oracle argument.
-/

namespace GreatFigures

/-- `statistics` sub-record of the persisted user data
(`StorageManager.defaultUserData` in gamification.js).
`categoryStats` is the category-name → `{total, correct}` mapping,
modelled as an association list. -/
structure Statistics where
  totalQuestions : Nat
  correctAnswers : Nat
  accuracyRate : Nat
  categoryStats : List (String × Nat × Nat)
deriving Repr, DecidableEq

/-- Session summary handed to `checkBadgeConditions` / `addQuizToHistory`. -/
structure QuizResult where
  difficulty : String
  score : Nat
  correctAnswers : Nat
  totalQuestions : Nat
  accuracyRate : Nat
deriving Repr, DecidableEq

/-- One `quizHistory` entry: the session summary plus the `date` and
`timestamp` fields added by `addQuizToHistory`. -/
structure HistEntry where
  result : QuizResult
  date : Int
  timestamp : Int
deriving Repr, DecidableEq

/-- The persisted `UserProgress` record (`defaultUserData` shape). -/
structure UserData where
  level : Nat
  experience : Nat
  totalPoints : Nat
  streak : Nat
  lastPlayDate : Option Int
  unlockedFigures : List String
  badges : List String
  statistics : Statistics
  quizHistory : List HistEntry
deriving Repr, DecidableEq

/-- `StorageManager.defaultUserData`. -/
def defaultUserData : UserData :=
  { level := 1
    experience := 0
    totalPoints := 0
    streak := 0
    lastPlayDate := none
    unlockedFigures := []
    badges := []
    statistics := { totalQuestions := 0, correctAnswers := 0, accuracyRate := 0, categoryStats := [] }
    quizHistory := [] }

/-- A badge definition from the static catalog in `GamificationManager`. -/
structure Badge where
  name : String
  icon : String
  condition : String
deriving Repr, DecidableEq

def badgeBeginner : Badge := { name := "初心者", icon := "🎓", condition := "quiz_completed" }
def badgeLearner : Badge := { name := "学習者", icon := "📖", condition := "correct_50" }
def badgeScholar : Badge := { name := "博識", icon := "🎯", condition := "correct_200" }
def badgePerfectionist : Badge := { name := "完璧主義者", icon := "💯", condition := "perfect_quiz" }
def badgeStreak7 : Badge := { name := "7日連続", icon := "🔥", condition := "streak_7" }
def badgeStreak30 : Badge := { name := "30日連続", icon := "⭐", condition := "streak_30" }

/-- `GamificationManager.calculateRequiredExp`: `100 * Math.pow(level, 2)`. -/
def calculateRequiredExp (level : Nat) : Nat :=
  100 * level ^ 2

/-- The `while (experience >= requiredExp(level))` loop body of
`GamificationManager.addExperience`, written with explicit fuel.  The third
argument threads the `leveledUp` flag set inside the loop.  Any fuel at
least `experience + 1` is enough for the loop to reach its exit condition
(proved below for `level ≥ 1`). -/
def expLoop : Nat → Nat → Nat → Bool → Nat × Nat × Bool
  | 0, level, experience, leveledUp => (level, experience, leveledUp)
  | fuel + 1, level, experience, leveledUp =>
    if calculateRequiredExp level ≤ experience then
      expLoop fuel (level + 1) (experience - calculateRequiredExp level) true
    else
      (level, experience, leveledUp)

/-- Return record of `addExperience`. -/
structure LevelUpInfo where
  leveledUp : Bool
  oldLevel : Nat
  newLevel : Nat
  currentExp : Nat
  requiredExp : Nat
deriving Repr, DecidableEq

/-- `GamificationManager.addExperience` in the case where a user record is
present in the store: add `exp`, cascade level-ups while the threshold is
reached, persist, and report.  (With no record the JS returns
`{leveledUp: false}` and changes nothing.) -/
def addExperience (u : UserData) (exp : Nat) : UserData × LevelUpInfo :=
  let oldLevel := u.level
  let experience := u.experience + exp
  let r := expLoop (experience + 1) u.level experience false
  let u' := { u with level := r.1, experience := r.2.1 }
  (u',
    { leveledUp := r.2.2
      oldLevel := oldLevel
      newLevel := r.1
      currentExp := r.2.1
      requiredExp := calculateRequiredExp r.1 })

/-- `GamificationManager.calculatePoints`.  `basePoints[difficulty] || 10`
is the three-key lookup with default 10; the two consecutive-correct bonus
increments are the two independent `if`s of the source. -/
def calculatePoints (difficulty : String) (isCorrect : Bool) (consecutiveCorrect : Nat) : Nat :=
  if !isCorrect then 0
  else
    let basePoints :=
      if difficulty = "beginner" then 10
      else if difficulty = "intermediate" then 20
      else if difficulty = "advanced" then 30
      else 10
    let points := basePoints
    let points := if 3 ≤ consecutiveCorrect then points + 10 else points
    let points := if 5 ≤ consecutiveCorrect then points + 20 else points
    points

/-- `GamificationManager.calculateConsecutiveBonus`. -/
def calculateConsecutiveBonus (consecutiveCorrect : Nat) : Nat :=
  if 5 ≤ consecutiveCorrect then 30
  else if 3 ≤ consecutiveCorrect then 10
  else 0

/-- `StorageManager.awardBadge`: reloads the persisted record, appends the
badge id if not already held, persists, and reports whether it was newly
granted. -/
def awardBadge (store : UserData) (badgeId : String) : UserData × Bool :=
  if store.badges.contains badgeId then (store, false)
  else ({ store with badges := store.badges ++ [badgeId] }, true)

/-- One badge block of `GamificationManager.checkBadgeConditions`: the
`!userData.badges.includes(id)` guard is evaluated on the snapshot loaded
at the top of the function, while `awardBadge` round-trips through the
store (`st`).  `cond` is the badge's awarding condition (constant `true`
for the beginner badge). -/
def badgeStep (snapshot : UserData) (st : UserData) (acc : List Badge)
    (badgeId : String) (badge : Badge) (cond : Bool) : UserData × List Badge :=
  if !(snapshot.badges.contains badgeId) then
    if cond then
      let r := awardBadge st badgeId
      (r.1, if r.2 then acc ++ [badge] else acc)
    else (st, acc)
  else (st, acc)

/-- `GamificationManager.checkBadgeConditions` (present-record case): the
six badge blocks in source order.  All condition reads
(`userData.statistics.correctAnswers`, `userData.streak`,
`quizResult.…`) refer to the snapshot loaded at function entry. -/
def checkBadgeConditions (store : UserData) (quizResult : QuizResult) : UserData × List Badge :=
  let userData := store
  let s1 := badgeStep userData store [] "beginner" badgeBeginner true
  let s2 := badgeStep userData s1.1 s1.2 "perfectionist" badgePerfectionist
      (quizResult.correctAnswers == quizResult.totalQuestions)
  let s3 := badgeStep userData s2.1 s2.2 "learner" badgeLearner
      (50 ≤ userData.statistics.correctAnswers)
  let s4 := badgeStep userData s3.1 s3.2 "scholar" badgeScholar
      (200 ≤ userData.statistics.correctAnswers)
  let s5 := badgeStep userData s4.1 s4.2 "streak_7" badgeStreak7
      (7 ≤ userData.streak)
  let s6 := badgeStep userData s5.1 s5.2 "streak_30" badgeStreak30
      (30 ≤ userData.streak)
  s6

/-- The badge blocks of `checkBadgeConditions` as a fold over
(id, definition, condition) triples; `checkBadgeConditions` is definitionally
this fold over `badgeStepList` (proved below), which lets the six
sequential blocks be reasoned about uniformly. -/
def runBadgeSteps (snapshot : UserData) :
    List (String × Badge × Bool) → UserData → List Badge → UserData × List Badge
  | [], st, acc => (st, acc)
  | step :: steps, st, acc =>
    let r := badgeStep snapshot st acc step.1 step.2.1 step.2.2
    runBadgeSteps snapshot steps r.1 r.2

/-- The six (id, definition, condition) triples evaluated by
`checkBadgeConditions` against snapshot `u` and session summary `r`. -/
def badgeStepList (u : UserData) (r : QuizResult) : List (String × Badge × Bool) :=
  [("beginner", badgeBeginner, true),
    ("perfectionist", badgePerfectionist, r.correctAnswers == r.totalQuestions),
    ("learner", badgeLearner, decide (50 ≤ u.statistics.correctAnswers)),
    ("scholar", badgeScholar, decide (200 ≤ u.statistics.correctAnswers)),
    ("streak_7", badgeStreak7, decide (7 ≤ u.streak)),
    ("streak_30", badgeStreak30, decide (30 ≤ u.streak))]

/-- `calculatePercentage` from utils.js: `0` when `total` is `0`, otherwise
`Math.round((value / total) * 100)`, i.e. round-half-up of `100*value/total`. -/
def calculatePercentage (value total : Nat) : Nat :=
  if total = 0 then 0
  else (200 * value + total) / (2 * total)

/-- Argument record of `StorageManager.updateStatistics`; `none` models a
field left `undefined` by the caller. -/
structure StatsUpdate where
  totalQuestions : Option Nat
  correctAnswers : Option Nat
  category : Option String
deriving Repr, DecidableEq

/-- Association-list update for `categoryStats`: create the `{total: 0,
correct: 0}` entry if absent, then add the deltas to it. -/
def bumpCategory (cs : List (String × Nat × Nat)) (cat : String) (dTotal dCorrect : Nat) :
    List (String × Nat × Nat) :=
  match cs with
  | [] => [(cat, dTotal, dCorrect)]
  | (c, t, k) :: rest =>
    if c = cat then (c, t + dTotal, k + dCorrect) :: rest
    else (c, t, k) :: bumpCategory rest cat dTotal dCorrect

/-- `StorageManager.updateStatistics` (present-record case): add the
deltas, recompute `accuracyRate` only when the cumulative
`totalQuestions` is positive, and update the per-category counters. -/
def updateStatistics (u : UserData) (stats : StatsUpdate) : UserData :=
  let st := u.statistics
  let st : Statistics := match stats.totalQuestions with
    | some n => { st with totalQuestions := st.totalQuestions + n }
    | none => st
  let st : Statistics := match stats.correctAnswers with
    | some n => { st with correctAnswers := st.correctAnswers + n }
    | none => st
  let st :=
    if 0 < st.totalQuestions then
      { st with accuracyRate := calculatePercentage st.correctAnswers st.totalQuestions }
    else st
  let st : Statistics := match stats.category with
    | some cat =>
      let cs := bumpCategory st.categoryStats cat (stats.totalQuestions.getD 0) (stats.correctAnswers.getD 0)
      { st with categoryStats := cs }
    | none => st
  { u with statistics := st }

/-- `StorageManager.addQuizToHistory` (present-record case): push the
summary extended with today's date and the current timestamp, then keep
only the last 50 entries (`slice(-50)`). -/
def addQuizToHistory (u : UserData) (quizResult : QuizResult) (today timestamp : Int) : UserData :=
  let history := u.quizHistory ++ [{ result := quizResult, date := today, timestamp := timestamp }]
  let history := if 50 < history.length then history.drop (history.length - 50) else history
  { u with quizHistory := history }

/-- `StorageManager.updateStreak` (present-record case).  `today` is the
current calendar date as a day number; the JS string comparison
`lastPlayDate === today` of canonical `YYYY-MM-DD` dates is day-number
equality, and `Math.floor((todayDate - lastDate) / 86400000)` on two
calendar dates is their day-number difference.  Returns the persisted
record and the JS return value (the streak). -/
def updateStreak (u : UserData) (today : Int) : UserData × Nat :=
  match u.lastPlayDate with
  | some lastPlayDate =>
    if lastPlayDate = today then (u, u.streak)
    else
      let diffDays : Int := today - lastPlayDate
      let streak :=
        if diffDays = 1 then u.streak + 1
        else if 1 < diffDays then 1
        else u.streak
      ({ u with streak := streak, lastPlayDate := some today }, streak)
  | none =>
    ({ u with streak := 1, lastPlayDate := some today }, 1)

/-- A question record from the loaded catalog. -/
structure Question where
  id : String
  category : String
  difficulty : String
  question : String
  options : List String
  correctAnswer : Nat
  explanation : String
  figureId : String
deriving Repr, DecidableEq

/-- A `wrongAnswers` entry of the quiz session. -/
structure WrongAnswer where
  question : String
  correctAnswer : String
  userAnswer : String
deriving Repr, DecidableEq

/-- The mutable fields of `QuizManager` (utils.js). -/
structure QuizState where
  questions : List Question
  currentQuestions : List Question
  currentQuestionIndex : Nat
  score : Nat
  correctAnswers : Nat
  wrongAnswers : List WrongAnswer
  consecutiveCorrect : Nat
  difficulty : String
  isAnswered : Bool
deriving Repr, DecidableEq

/-- The `QuizManager` constructor state. -/
def initialQuizState : QuizState :=
  { questions := []
    currentQuestions := []
    currentQuestionIndex := 0
    score := 0
    correctAnswers := 0
    wrongAnswers := []
    consecutiveCorrect := 0
    difficulty := "beginner"
    isAnswered := false }

/-- The destructuring swap `[a[i], a[j]] = [a[j], a[i]]` of
`shuffleArray` (identity when an index is out of range; the loop keeps
both in range). -/
def arraySwap (arr : Array Question) (i j : Nat) : Array Question :=
  match arr[i]?, arr[j]? with
  | some a, some b => (arr.setD i b).setD j a
  | _, _ => arr

/-- The Fisher–Yates loop of `shuffleArray`, iterating `i` from
`n-1` down to `1` and swapping index `i` with `rand i % (i+1)`, where
`rand` is the oracle standing for `Math.floor(Math.random() * (i + 1))`
already reduced mod `i+1`.  On an empty or singleton array the loop body
never runs. -/
def fisherYatesLoop (rand : Nat → Nat) : Nat → Array Question → Array Question
  | 0, arr => arr
  | i + 1, arr =>
    let j := rand (i + 1) % (i + 2)
    fisherYatesLoop rand i (arraySwap arr (i + 1) j)

/-- `shuffleArray` from utils.js, with the random source as an oracle. -/
def shuffleArray (rand : Nat → Nat) (l : List Question) : List Question :=
  (fisherYatesLoop rand (l.length - 1) l.toArray).toList

/-- `QuizManager.selectQuestions`: filter by difficulty, shuffle, take
`count`. -/
def selectQuestions (rand : Nat → Nat) (s : QuizState) (difficulty : String) (count : Nat) :
    List Question :=
  let availableQuestions := s.questions.filter (fun q => q.difficulty = difficulty)
  let shuffled := shuffleArray rand availableQuestions
  shuffled.take count

/-- `QuizManager.startQuiz`: resets the session fields, selects up to 10
questions, and returns `false` (after those writes) when the selection is
empty, `true` otherwise. -/
def startQuiz (rand : Nat → Nat) (s : QuizState) (difficulty : String) : QuizState × Bool :=
  let s := { s with
    difficulty := difficulty
    currentQuestionIndex := 0
    score := 0
    correctAnswers := 0
    wrongAnswers := []
    consecutiveCorrect := 0 }
  let s := { s with currentQuestions := selectQuestions rand s difficulty 10 }
  if s.currentQuestions.length = 0 then (s, false)
  else (s, true)

/-- Per-question feedback record returned by `checkAnswer`. -/
structure Feedback where
  isCorrect : Bool
  correctAnswer : Nat
  explanation : String
  points : Nat
deriving Repr, DecidableEq

/-- `QuizManager.checkAnswer`.  Returns `none` for the JS `null` when the
current question was already answered, and also `none` when the cursor is
out of range (where the JS would fault on `undefined`); the quiz-session
state machine only calls it with a valid current question.  The `points`
field of the feedback recomputes `calculatePoints` with the
already-updated `consecutiveCorrect`, exactly as the source does. -/
def checkAnswer (s : QuizState) (selectedOption : Nat) : QuizState × Option Feedback :=
  if s.isAnswered then (s, none)
  else
    match s.currentQuestions[s.currentQuestionIndex]? with
    | none => (s, none)
    | some question =>
      let isCorrect := selectedOption == question.correctAnswer
      let s := { s with isAnswered := true }
      let s :=
        if isCorrect then
          let s := { s with
            correctAnswers := s.correctAnswers + 1
            consecutiveCorrect := s.consecutiveCorrect + 1 }
          let points := calculatePoints s.difficulty true s.consecutiveCorrect
          { s with score := s.score + points }
        else
          { s with
            consecutiveCorrect := 0
            wrongAnswers := s.wrongAnswers ++
              [{ question := question.question
                 correctAnswer := question.options.getD question.correctAnswer ""
                 userAnswer := question.options.getD selectedOption "" }] }
      (s,
        some
          { isCorrect := isCorrect
            correctAnswer := question.correctAnswer
            explanation := question.explanation
            points := if isCorrect then calculatePoints s.difficulty true s.consecutiveCorrect else 0 })

/-- `QuizManager.nextQuestion`. -/
def nextQuestion (s : QuizState) : QuizState × Bool :=
  let s := { s with isAnswered := false, currentQuestionIndex := s.currentQuestionIndex + 1 }
  (s, decide (s.currentQuestionIndex < s.currentQuestions.length))

/-- `QuizManager.getProgress`. -/
def getProgress (s : QuizState) : Nat :=
  calculatePercentage (s.currentQuestionIndex + 1) s.currentQuestions.length

/-- A JSON value, as produced by a successful `JSON.parse`.  Numbers are
modelled as integers (all numbers in the persisted record are integers). -/
inductive Json where
  | null : Json
  | bool : Bool → Json
  | num : Int → Json
  | str : String → Json
  | arr : List Json → Json
  | obj : List (String × Json) → Json
deriving Repr

/-- Look a key up in a JSON object. -/
def Json.lookup (j : Json) (key : String) : Option Json :=
  match j with
  | .obj fields => fields.lookup key
  | _ => none

/-- `StorageManager.importData`, with the store content as a `Json` value
(what `localStorage` holds after `JSON.stringify`).  The argument is the
result of `JSON.parse` on the user-supplied string: `none` when parsing
threw (the `catch` branch alerts and keeps the store), `some v` for any
parseable value, which the source saves verbatim.  Returns the store
content after the call and whether the import was reported successful. -/
def importData (store : Json) (parsed : Option Json) : Json × Bool :=
  match parsed with
  | some userData => (userData, true)
  | none => (store, false)

/-- Modelled from the spec: structural-integrity check for an imported
`UserProgress` record, absent from the source (`importData` commits any
parseable value).  Per the spec's data model, a structurally valid record
is an object carrying at least the numeric `level`, `experience`,
`totalPoints` and `streak` fields, array `unlockedFigures`, `badges` and
`quizHistory` fields, and a `statistics` object. -/
def isValidUserProgressJson (j : Json) : Bool :=
  match j with
  | .obj _ =>
    (match j.lookup "level" with | some (.num _) => true | _ => false) &&
    (match j.lookup "experience" with | some (.num _) => true | _ => false) &&
    (match j.lookup "totalPoints" with | some (.num _) => true | _ => false) &&
    (match j.lookup "streak" with | some (.num _) => true | _ => false) &&
    (match j.lookup "unlockedFigures" with | some (.arr _) => true | _ => false) &&
    (match j.lookup "badges" with | some (.arr _) => true | _ => false) &&
    (match j.lookup "statistics" with | some (.obj _) => true | _ => false) &&
    (match j.lookup "quizHistory" with | some (.arr _) => true | _ => false)
  | _ => false

/-- A structurally valid persisted record in its JSON form. -/
def validStoreJson : Json :=
  .obj [("level", .num 1), ("experience", .num 0), ("totalPoints", .num 0),
    ("streak", .num 0), ("lastPlayDate", .null), ("unlockedFigures", .arr []),
    ("badges", .arr []), ("statistics", .obj []), ("quizHistory", .arr [])]

/-- A sample catalog question, used to instantiate session-level
statements on concrete data. -/
def sampleQuestion : Question :=
  { id := "q1"
    category := "scientist"
    difficulty := "beginner"
    question := "?"
    options := ["a", "b"]
    correctAnswer := 0
    explanation := "e"
    figureId := "f1" }

/-- A sample in-progress session positioned on `sampleQuestion`. -/
def sampleSession : QuizState :=
  { initialQuizState with
    questions := [sampleQuestion]
    currentQuestions := [sampleQuestion] }

/-! ## Helper lemmas -/

/-- For a positive level the threshold is at least 100. -/
lemma calculateRequiredExp_ge (level : Nat) (h : 1 ≤ level) :
    100 ≤ calculateRequiredExp level := by
  have h2 : 1 ≤ level ^ 2 := Nat.one_le_pow 2 level (by omega)
  calc 100 = 100 * 1 := by omega
    _ ≤ 100 * level ^ 2 := Nat.mul_le_mul_left 100 h2
    _ = calculateRequiredExp level := rfl

/-- With positive level and fuel exceeding the current experience, the
level-up loop exits with experience strictly below the new threshold and
the level still positive. -/
lemma expLoop_exit (fuel : Nat) :
    ∀ (level e : Nat) (lb : Bool), 1 ≤ level → e < fuel →
      (expLoop fuel level e lb).2.1 < calculateRequiredExp (expLoop fuel level e lb).1 ∧
      1 ≤ (expLoop fuel level e lb).1 := by
  induction fuel with
  | zero => intro level e lb _ hf; omega
  | succ f ih =>
    intro level e lb hl hf
    rw [expLoop]
    split_ifs with h
    · have h100 := calculateRequiredExp_ge level hl
      exact ih (level + 1) (e - calculateRequiredExp level) true (by omega) (by omega)
    · exact show e < calculateRequiredExp level ∧ 1 ≤ level from ⟨by omega, hl⟩

/-! ## Claims -/

/-- C1: for any stored user record (positive level, experience a natural
number so that `0 ≤ experience` holds by type) and any added amount, after
`addExperience` the persisted record satisfies
`experience < requiredExperience(level)` with the level still positive;
and the multi-threshold cascade works: adding 1000 experience at level 1
with 0 experience crosses the 100 and 400 thresholds in turn, landing at
level 3 with 500 experience remaining. -/
theorem addExperience_invariant (u : UserData) (exp : Nat) (h : 1 ≤ u.level) :
    ((addExperience u exp).1.experience <
        calculateRequiredExp (addExperience u exp).1.level ∧
      1 ≤ (addExperience u exp).1.level) ∧
    ((addExperience defaultUserData 1000).1.level = 3 ∧
      (addExperience defaultUserData 1000).1.experience = 500) := by
  constructor
  · have := expLoop_exit (u.experience + exp + 1) u.level (u.experience + exp) false h (by omega)
    exact this
  · exact ⟨rfl, rfl⟩

theorem addExperience_invariant_witness :
    (addExperience defaultUserData 250).1.experience <
        calculateRequiredExp (addExperience defaultUserData 250).1.level ∧
      1 ≤ (addExperience defaultUserData 250).1.level :=
  (addExperience_invariant defaultUserData 250 (by decide)).1

/-- C2: `calculatePoints` returns 0 exactly when the answer is incorrect;
otherwise the base points are 10/20/30 by difficulty tier (10 for unknown
difficulty) plus a bonus of exactly 0, 10, or 30 depending on whether the
consecutive-correct count is below 3, in 3–4, or at least 5. -/
theorem calculatePoints_spec (difficulty : String) (consecutiveCorrect : Nat) :
    calculatePoints difficulty false consecutiveCorrect = 0 ∧
    calculatePoints difficulty true consecutiveCorrect =
      (if difficulty = "beginner" then 10
        else if difficulty = "intermediate" then 20
        else if difficulty = "advanced" then 30
        else 10) +
      (if 5 ≤ consecutiveCorrect then 30
        else if 3 ≤ consecutiveCorrect then 10
        else 0) := by
  refine ⟨rfl, ?_⟩
  simp only [calculatePoints, Bool.not_true, Bool.false_eq_true, if_false]
  split_ifs <;> omega

/-- C3: one streak update at session completion: same-day `lastPlayDate`
leaves the record untouched; an absent `lastPlayDate` sets the streak
to 1; a whole-day difference of exactly 1 increments the streak; a
difference greater than 1 resets it to 1; and `lastPlayDate` becomes
`today` in every case where it was not already `today`. -/
theorem updateStreak_spec (u : UserData) (today : Int) :
    (u.lastPlayDate = some today → updateStreak u today = (u, u.streak)) ∧
    (u.lastPlayDate = none →
      updateStreak u today =
        ({ u with streak := 1, lastPlayDate := some today }, 1)) ∧
    (∀ last, u.lastPlayDate = some last → today - last = 1 →
      updateStreak u today =
        ({ u with streak := u.streak + 1, lastPlayDate := some today }, u.streak + 1)) ∧
    (∀ last, u.lastPlayDate = some last → 1 < today - last →
      updateStreak u today =
        ({ u with streak := 1, lastPlayDate := some today }, 1)) ∧
    (u.lastPlayDate ≠ some today → (updateStreak u today).1.lastPlayDate = some today) := by
  refine ⟨?_, ?_, ?_, ?_, ?_⟩
  · intro hl
    simp [updateStreak, hl]
  · intro hl
    simp only [updateStreak, hl]
  · intro last hl hd
    have hne : last ≠ today := by omega
    simp only [updateStreak, hl]
    rw [if_neg hne, if_pos hd]
  · intro last hl hd
    have hne : last ≠ today := by omega
    have hd1 : today - last ≠ 1 := by omega
    simp only [updateStreak, hl]
    rw [if_neg hne, if_neg hd1, if_pos hd]
  · intro hne
    rcases hl : u.lastPlayDate with _ | last
    · simp only [updateStreak, hl]
    · have : last ≠ today := fun hh => hne (hh ▸ hl)
      simp only [updateStreak, hl]
      rw [if_neg this]

theorem updateStreak_spec_witness :
    updateStreak { defaultUserData with streak := 3, lastPlayDate := some 4 } 5 =
      ({ defaultUserData with streak := 4, lastPlayDate := some 5 }, 4) := by
  have h := (updateStreak_spec { defaultUserData with streak := 3, lastPlayDate := some 4 } 5).2.2.1
  exact h 4 rfl (by decide)

/-- C8: for levels `a < b` with `a ≥ 1`, the threshold formula is exactly
`100 * level²` and is strictly increasing. -/
theorem calculateRequiredExp_spec (a b : Nat) (ha : 1 ≤ a) (hab : a < b) :
    calculateRequiredExp a = 100 * a ^ 2 ∧
    calculateRequiredExp a < calculateRequiredExp b := by
  refine ⟨rfl, ?_⟩
  have h2 : a ^ 2 < b ^ 2 := Nat.pow_lt_pow_left hab (by omega)
  calc calculateRequiredExp a = 100 * a ^ 2 := rfl
    _ < 100 * b ^ 2 := by omega
    _ = calculateRequiredExp b := rfl

theorem calculateRequiredExp_spec_witness :
    calculateRequiredExp 2 = 100 * 2 ^ 2 ∧ calculateRequiredExp 2 < calculateRequiredExp 3 :=
  calculateRequiredExp_spec 2 3 (by decide) (by decide)

/-- The history field after one `addQuizToHistory` call: the pushed list,
with everything before its last 50 entries dropped. -/
lemma addQuizToHistory_quizHistory (u : UserData) (r : QuizResult) (d t : Int) :
    (addQuizToHistory u r d t).quizHistory =
      (u.quizHistory ++ [({ result := r, date := d, timestamp := t } : HistEntry)]).drop
        (u.quizHistory.length + 1 - 50) := by
  simp only [addQuizToHistory]
  split_ifs with h
  · congr 1
    simp [List.length_append]
  · have h0 : u.quizHistory.length + 1 - 50 = 0 := by
      simp [List.length_append] at h
      omega
    rw [h0, List.drop_zero]

/-- Fold form of the per-claim scenario: starting from a record whose
history holds at most 50 entries, completing one session per element of
`entries` leaves exactly the last 50 of the accumulated stream. -/
lemma addQuizToHistory_foldl (entries : List (QuizResult × Int × Int)) :
    ∀ u : UserData, u.quizHistory.length ≤ 50 →
      ((entries.foldl (fun v p => addQuizToHistory v p.1 p.2.1 p.2.2) u)).quizHistory =
        (u.quizHistory ++ entries.map
            (fun p => ({ result := p.1, date := p.2.1, timestamp := p.2.2 } : HistEntry))).drop
          (u.quizHistory.length + entries.length - 50) := by
  induction entries with
  | nil =>
    intro u hu
    simp only [List.foldl_nil, List.map_nil, List.append_nil, List.length_nil]
    rw [show u.quizHistory.length + 0 - 50 = 0 by omega, List.drop_zero]
  | cons e es ih =>
    intro u hu
    simp only [List.foldl_cons, List.map_cons, List.length_cons]
    have hstep := addQuizToHistory_quizHistory u e.1 e.2.1 e.2.2
    have hlen : (addQuizToHistory u e.1 e.2.1 e.2.2).quizHistory.length ≤ 50 := by
      rw [hstep, List.length_drop]
      simp only [List.length_append, List.length_singleton]
      omega
    have hle : u.quizHistory.length + 1 - 50 ≤
        (u.quizHistory ++ [({ result := e.1, date := e.2.1, timestamp := e.2.2 } : HistEntry)]).length := by
      simp only [List.length_append, List.length_singleton]
      omega
    rw [ih (addQuizToHistory u e.1 e.2.1 e.2.2) hlen, hstep, List.length_drop,
      ← List.drop_append_of_le_length hle, List.drop_drop,
      List.append_cons u.quizHistory _ (es.map _)]
    congr 1
    simp only [List.length_append, List.length_singleton]
    omega

/-- C7: each `addQuizToHistory` call leaves the history at length
`min (old length + 1) 50` and a suffix of the old history with the new
entry appended (so the retained entries are the most recent ones in
chronological order); consequently, 55 completed sessions starting from
the default record leave exactly the last 50 summaries, the 5 oldest
dropped. -/
theorem addQuizToHistory_bound :
    (∀ (u : UserData) (r : QuizResult) (d t : Int),
      (addQuizToHistory u r d t).quizHistory.length = min (u.quizHistory.length + 1) 50 ∧
      ∃ dropped,
        u.quizHistory ++ [({ result := r, date := d, timestamp := t } : HistEntry)] =
          dropped ++ (addQuizToHistory u r d t).quizHistory) ∧
    (∀ entries : List (QuizResult × Int × Int),
      ((entries.foldl (fun v p => addQuizToHistory v p.1 p.2.1 p.2.2) defaultUserData)).quizHistory =
        (entries.map
            (fun p => ({ result := p.1, date := p.2.1, timestamp := p.2.2 } : HistEntry))).drop
          (entries.length - 50)) := by
  constructor
  · intro u r d t
    constructor
    · rw [addQuizToHistory_quizHistory, List.length_drop]
      simp only [List.length_append, List.length_singleton]
      omega
    · refine ⟨(u.quizHistory ++ [({ result := r, date := d, timestamp := t } : HistEntry)]).take
        (u.quizHistory.length + 1 - 50), ?_⟩
      rw [addQuizToHistory_quizHistory, List.take_append_drop]
  · intro entries
    have h := addQuizToHistory_foldl entries defaultUserData (by simp [defaultUserData])
    simpa [defaultUserData] using h

/-- C10: `calculatePercentage` with zero total returns 0 instead of
faulting; hence `getProgress` on a session with an empty question list
returns 0; and `updateStatistics` leaves `accuracyRate` untouched
whenever the cumulative `totalQuestions` is still 0 after the update. -/
theorem calculatePercentage_safe (value : Nat) (s : QuizState) (u : UserData)
    (stats : StatsUpdate) (hq : s.currentQuestions = [])
    (ht : u.statistics.totalQuestions + stats.totalQuestions.getD 0 = 0) :
    calculatePercentage value 0 = 0 ∧ getProgress s = 0 ∧
    (updateStatistics u stats).statistics.accuracyRate = u.statistics.accuracyRate := by
  refine ⟨rfl, ?_, ?_⟩
  · simp [getProgress, hq, calculatePercentage]
  · rcases stats with ⟨tq, ca, cat⟩
    rcases tq with _ | n <;> rcases ca with _ | m <;> rcases cat with _ | c <;>
      simp_all [updateStatistics, Option.getD]

theorem calculatePercentage_safe_witness :
    calculatePercentage 7 0 = 0 ∧ getProgress initialQuizState = 0 ∧
    (updateStatistics defaultUserData
        { totalQuestions := none, correctAnswers := none, category := none }).statistics.accuracyRate =
      defaultUserData.statistics.accuracyRate :=
  calculatePercentage_safe 7 initialQuizState defaultUserData
    { totalQuestions := none, correctAnswers := none, category := none } rfl rfl

/-- C9: for an in-progress session with a valid current question not yet
answered, the `points` field of the feedback returned by `checkAnswer` —
recomputed from the already-incremented consecutive-correct counter — is
numerically equal to the points added to the session score in the same
call; for an incorrect answer the returned points are 0 and the score is
unchanged. -/
theorem checkAnswer_points_consistent (s : QuizState) (selectedOption : Nat) (q : Question)
    (hna : s.isAnswered = false)
    (hq : s.currentQuestions[s.currentQuestionIndex]? = some q) :
    ((checkAnswer s selectedOption).2.elim 0 Feedback.points =
        (checkAnswer s selectedOption).1.score - s.score ∧
      s.score ≤ (checkAnswer s selectedOption).1.score ∧
      ((checkAnswer s selectedOption).2.elim false Feedback.isCorrect = true ↔
        selectedOption = q.correctAnswer)) ∧
    (selectedOption ≠ q.correctAnswer →
      (checkAnswer s selectedOption).2.elim 0 Feedback.points = 0 ∧
      (checkAnswer s selectedOption).1.score = s.score) := by
  simp only [checkAnswer, hna, Bool.false_eq_true, if_false, hq]
  by_cases hc : selectedOption = q.correctAnswer
  · simp [hc]
  · simp [hc]

theorem checkAnswer_points_consistent_witness :
    (checkAnswer sampleSession 0).2.elim 0 Feedback.points =
      (checkAnswer sampleSession 0).1.score - sampleSession.score :=
  (checkAnswer_points_consistent sampleSession 0 sampleQuestion rfl rfl).1.1

/-- Shuffling the empty list produces the empty list (the Fisher–Yates
loop body never runs). -/
lemma shuffleArray_nil (rand : Nat → Nat) : shuffleArray rand [] = [] := rfl

/-- C4 counterexample: on a session with score 42 and difficulty
"beginner", starting a quiz at a difficulty with zero matching questions
returns the failure signal `false` — but the session state HAS changed
(the source resets the counters, sets the difficulty and empties the
question list before testing the selection), contradicting the claim that
the state is left unchanged. -/
theorem startQuiz_emptyPool_counterexample :
    (startQuiz (fun _ => 0) { sampleSession with score := 42 } "advanced").2 = false ∧
    (startQuiz (fun _ => 0) { sampleSession with score := 42 } "advanced").1 ≠
      { sampleSession with score := 42 } ∧
    (startQuiz (fun _ => 0) { sampleSession with score := 42 } "advanced").1.score = 0 ∧
    (startQuiz (fun _ => 0) { sampleSession with score := 42 } "advanced").1.difficulty =
      "advanced" := by
  refine ⟨rfl, ?_, rfl, rfl⟩
  decide

/-- C4 as amended: when zero questions in the pool match the requested
difficulty, `startQuiz` returns the failure signal `false`, but only
after mutating the session: the counters and cursor are reset, the
difficulty is overwritten, and the current-question list is emptied; only
the loaded question pool itself is untouched. -/
theorem startQuiz_emptyPool (rand : Nat → Nat) (s : QuizState) (difficulty : String)
    (h : s.questions.filter (fun q => q.difficulty = difficulty) = []) :
    startQuiz rand s difficulty =
      ({ s with
          difficulty := difficulty
          currentQuestionIndex := 0
          score := 0
          correctAnswers := 0
          wrongAnswers := []
          consecutiveCorrect := 0
          currentQuestions := [] }, false) := by
  simp only [startQuiz, selectQuestions]
  simp [h, shuffleArray_nil]

theorem startQuiz_emptyPool_witness :
    startQuiz (fun _ => 0) sampleSession "advanced" =
      ({ sampleSession with
          difficulty := "advanced"
          currentQuestionIndex := 0
          score := 0
          correctAnswers := 0
          wrongAnswers := []
          consecutiveCorrect := 0
          currentQuestions := [] }, false) :=
  startQuiz_emptyPool (fun _ => 0) sampleSession "advanced" (by decide)

/-- C6 counterexample: importing the parseable but structurally invalid
JSON value `42` commits it verbatim over a structurally valid previous
record and reports success — the source performs no structural-integrity
validation before committing, contradicting the claim. -/
theorem importData_noValidation_counterexample :
    importData validStoreJson (some (Json.num 42)) = (Json.num 42, true) ∧
    isValidUserProgressJson (Json.num 42) = false ∧
    isValidUserProgressJson validStoreJson = true ∧
    validStoreJson ≠ Json.num 42 :=
  ⟨rfl, rfl, rfl, fun h => Json.noConfusion h⟩

/-- C6 as amended: `importData` validates only JSON well-formedness, not
structural integrity: a parse failure leaves the previous record intact
and surfaces a failure, but every parseable value — structurally valid or
not — is committed verbatim, replacing the previous record, and reported
as a success. -/
theorem importData_spec (store : Json) (parsed : Option Json) :
    (parsed = none → importData store parsed = (store, false)) ∧
    (∀ v, parsed = some v → importData store parsed = (v, true)) := by
  constructor
  · intro h
    rw [h]
    rfl
  · intro v h
    rw [h]
    rfl

theorem importData_spec_witness :
    importData validStoreJson none = (validStoreJson, false) :=
  (importData_spec validStoreJson none).1 rfl

/-- `checkBadgeConditions` is the fold of `badgeStep` over its six
(id, definition, condition) triples. -/
lemma checkBadgeConditions_eq_run (store : UserData) (r : QuizResult) :
    checkBadgeConditions store r = runBadgeSteps store (badgeStepList store r) store [] := rfl

/-- A badge block either leaves store and accumulator unchanged, or — when
the snapshot does not hold the badge, the condition holds, and the store
does not hold it either — appends the id to the store's badges and the
definition to the accumulator. -/
lemma badgeStep_cases (snap st : UserData) (acc : List Badge) (id : String) (b : Badge)
    (c : Bool) :
    badgeStep snap st acc id b c = (st, acc) ∨
    (badgeStep snap st acc id b c = ({ st with badges := st.badges ++ [id] }, acc ++ [b]) ∧
      id ∉ st.badges) := by
  unfold badgeStep awardBadge
  by_cases hs : id ∈ snap.badges
  · left
    simp [hs]
  · by_cases hc : c = true
    · by_cases hm : id ∈ st.badges
      · left
        simp [hs, hc, hm]
      · right
        exact ⟨by simp [hs, hc, hm], hm⟩
    · left
      simp [hs, hc]

/-- A badge block never shrinks the badge list. -/
lemma badgeStep_badges_sub (snap st : UserData) (acc : List Badge) (id : String) (b : Badge)
    (c : Bool) (x : String) (hx : x ∈ st.badges) :
    x ∈ (badgeStep snap st acc id b c).1.badges := by
  rcases badgeStep_cases snap st acc id b c with heq | ⟨heq, -⟩ <;> rw [heq] <;> simp [hx]

/-- When the block's condition holds and the snapshot's badges are all in
the store, the block's id is held afterwards. -/
lemma badgeStep_mem (snap st : UserData) (acc : List Badge) (id : String) (b : Badge)
    (c : Bool) (hsub : ∀ x ∈ snap.badges, x ∈ st.badges) (hc : c = true) :
    id ∈ (badgeStep snap st acc id b c).1.badges := by
  subst hc
  unfold badgeStep awardBadge
  by_cases hs : id ∈ snap.badges
  · simp [hs]
    exact hsub id hs
  · by_cases hm : id ∈ st.badges
    · simp [hs, hm]
    · simp [hs, hm]

/-- Folding the blocks only appends fresh ids to the badge list, keeps
every other field, and preserves distinctness of the held badges. -/
lemma runBadgeSteps_shape (snap : UserData) :
    ∀ (steps : List (String × Badge × Bool)) (st : UserData) (acc : List Badge),
      (∃ extra, (runBadgeSteps snap steps st acc).1 =
          { st with badges := st.badges ++ extra } ∧ ∀ x ∈ extra, x ∉ st.badges) ∧
      (st.badges.Nodup → (runBadgeSteps snap steps st acc).1.badges.Nodup) := by
  intro steps
  induction steps with
  | nil =>
    intro st acc
    exact ⟨⟨[], by simp [runBadgeSteps], by simp⟩, fun h => h⟩
  | cons step steps ih =>
    intro st acc
    simp only [runBadgeSteps]
    rcases badgeStep_cases snap st acc step.1 step.2.1 step.2.2 with heq | ⟨heq, hnm⟩
    · rw [heq]
      exact ih st acc
    · rw [heq]
      obtain ⟨⟨extra, heq', hfresh⟩, hnd⟩ := ih { st with badges := st.badges ++ [step.1] } (acc ++ [step.2.1])
      constructor
      · refine ⟨step.1 :: extra, ?_, ?_⟩
        · rw [heq']
          simp
        · intro x hx
          rcases List.mem_cons.mp hx with rfl | hx'
          · exact hnm
          · intro hxs
            exact hfresh x hx' (by simp [hxs])
      · intro hst
        apply hnd
        simp [List.nodup_append, hst, hnm]

/-- Membership in the badge list is preserved by the fold. -/
lemma runBadgeSteps_badges_mono (snap : UserData) (steps : List (String × Badge × Bool))
    (st : UserData) (acc : List Badge) (x : String) (hx : x ∈ st.badges) :
    x ∈ (runBadgeSteps snap steps st acc).1.badges := by
  obtain ⟨⟨extra, heq, -⟩, -⟩ := runBadgeSteps_shape snap steps st acc
  rw [heq]
  simp [hx]

/-- After the fold, every id whose condition held is a held badge,
provided the snapshot's badges all were in the store. -/
lemma runBadgeSteps_covered (snap : UserData) :
    ∀ (steps : List (String × Badge × Bool)) (st : UserData) (acc : List Badge),
      (∀ x ∈ snap.badges, x ∈ st.badges) →
      ∀ p ∈ steps, p.2.2 = true → p.1 ∈ (runBadgeSteps snap steps st acc).1.badges := by
  intro steps
  induction steps with
  | nil =>
    intro st acc hsub p hp
    simp at hp
  | cons step steps ih =>
    intro st acc hsub p hp hc
    simp only [runBadgeSteps]
    have hsub' : ∀ x ∈ snap.badges, x ∈ (badgeStep snap st acc step.1 step.2.1 step.2.2).1.badges :=
      fun x hx => badgeStep_badges_sub snap st acc step.1 step.2.1 step.2.2 x (hsub x hx)
    rcases List.mem_cons.mp hp with rfl | hp'
    · exact runBadgeSteps_badges_mono snap steps _ _ p.1
        (badgeStep_mem snap st acc p.1 p.2.1 p.2.2 hsub hc)
    · exact ih _ _ hsub' p hp' hc

/-- When every triple whose condition holds names a badge the snapshot
already holds, the fold is the identity: nothing is awarded and nothing
is returned. -/
lemma runBadgeSteps_noop (snap : UserData) :
    ∀ (steps : List (String × Badge × Bool)) (st : UserData) (acc : List Badge),
      (∀ p ∈ steps, p.2.2 = true → p.1 ∈ snap.badges) →
      runBadgeSteps snap steps st acc = (st, acc) := by
  intro steps
  induction steps with
  | nil =>
    intro st acc _
    rfl
  | cons step steps ih =>
    intro st acc h
    have hstep : badgeStep snap st acc step.1 step.2.1 step.2.2 = (st, acc) := by
      by_cases hc : step.2.2 = true
      · have hmem := h step (List.mem_cons_self step steps) hc
        unfold badgeStep
        simp [hmem]
      · unfold badgeStep
        simp [hc]
    simp only [runBadgeSteps, hstep]
    exact ih st acc (fun p hp => h p (List.mem_cons_of_mem step hp))

/-- C5: for every persisted record with distinct badges and every session
summary: `checkBadgeConditions` only ever appends badges the record did
not yet hold (never removing or duplicating one), and running it a second
time with the same cumulative state changes nothing and returns no newly
granted badge — each badge is awarded at most once and is never re-reported
as new. -/
theorem checkBadgeConditions_idempotent (store : UserData) (r : QuizResult)
    (hnd : store.badges.Nodup) :
    checkBadgeConditions (checkBadgeConditions store r).1 r =
      ((checkBadgeConditions store r).1, []) ∧
    (∃ extra, (checkBadgeConditions store r).1 =
        { store with badges := store.badges ++ extra } ∧ ∀ x ∈ extra, x ∉ store.badges) ∧
    (checkBadgeConditions store r).1.badges.Nodup := by
  obtain ⟨⟨extra, heq, hfresh⟩, hnodup⟩ :=
    runBadgeSteps_shape store (badgeStepList store r) store []
  rw [checkBadgeConditions_eq_run store r]
  have hlist : badgeStepList (runBadgeSteps store (badgeStepList store r) store []).1 r =
      badgeStepList store r := by
    rw [heq]
    simp [badgeStepList]
  refine ⟨?_, ⟨extra, heq, hfresh⟩, hnodup hnd⟩
  rw [checkBadgeConditions_eq_run, hlist]
  apply runBadgeSteps_noop
  intro p hp hc
  exact runBadgeSteps_covered store (badgeStepList store r) store [] (fun x hx => hx) p hp hc

theorem checkBadgeConditions_idempotent_witness :
    checkBadgeConditions
        (checkBadgeConditions defaultUserData
          { difficulty := "beginner", score := 100, correctAnswers := 10,
            totalQuestions := 10, accuracyRate := 100 }).1
        { difficulty := "beginner", score := 100, correctAnswers := 10,
          totalQuestions := 10, accuracyRate := 100 } =
      ((checkBadgeConditions defaultUserData
          { difficulty := "beginner", score := 100, correctAnswers := 10,
            totalQuestions := 10, accuracyRate := 100 }).1, []) :=
  (checkBadgeConditions_idempotent defaultUserData
    { difficulty := "beginner", score := 100, correctAnswers := 10,
      totalQuestions := 10, accuracyRate := 100 } (by simp [defaultUserData])).1

end GreatFigures
